import Mathlib

/-!
Verification development for the vtrace repository (Go).

The embedding below translates the statistics engine
(internal/stats/stats.go), the HLS resource resolution and segment
selection (internal/probe/hls.go), the trace construction
(internal/probe/trace.go), and the measurement orchestrator and delay
policy (cmd/vtrace/root.go) into Lean.

Conventions of the embedding:
 * Go `time.Duration` is an `Int` counting nanoseconds; Go integer
   division on durations truncates toward zero and is modelled by
   `Int.tdiv`.
 * Go `float64` arithmetic inside the statistics functions is modelled
   by exact rational arithmetic (`ℚ`); the Go conversion
   `time.Duration(f)` (truncation toward zero of a float) is modelled by
   `ratTrunc`, and `math.Sqrt` followed by that conversion is modelled
   by `ratSqrtTrunc` (the floor of the real square root of a
   non-negative rational).  For every concrete input appearing in the
   theorems below the Go float computation is exact, so the rational
   model agrees with the compiled program there.
 * Go `time.Time` timestamps that may or may not have been observed
   (the `IsZero` test) are modelled by `Option Int`; a wall clock read
   such as `time.Since` becomes an explicit `now` argument.
 * Network and subprocess collaborators (HTTP fetches, the URL parser
   of the standard library, the ffprobe frame detector, the random
   number generator) are modelled as explicit parameters, so the
   orchestrator is a pure function of the collaborator behaviour.
-/

namespace VTrace

/-- Go `time.Duration`: a count of nanoseconds. -/
abbrev Duration := Int

/-- Go integer division on durations truncates toward zero. -/
def durDiv (a b : Duration) : Duration := Int.tdiv a b

/-! ## internal/stats/stats.go -/

/-- `Stats` from internal/stats/stats.go. -/
structure Stats where
  mean : Duration
  median : Duration
  min : Duration
  max : Duration
  stdDev : Duration
deriving Repr, DecidableEq

/-- `Outlier` from internal/stats/stats.go: original index, raw value
and percentage deviation from the mean (deviation modelled in ℚ). -/
structure Outlier where
  index : Nat
  value : Duration
  deviation : ℚ
deriving Repr, DecidableEq

/-- The ascending sort performed with `sort.Slice` on a private copy.
Durations form a linear order, so the ascending rearrangement of a
list is unique and any correct sorting algorithm computes it;
insertion sort is used because it reduces inside the kernel. -/
def sortDur (l : List Duration) : List Duration := l.insertionSort (· ≤ ·)

/-- `computeMean`: sum divided by length with Go integer
(truncating) division; zero on the empty list. -/
def computeMean (l : List Duration) : Duration :=
  if l.length = 0 then 0 else durDiv (l.sum) (l.length : Int)

/-- `computeMedian`: middle element of the sorted slice for odd length,
Go-division average of the two central elements for even length. -/
def computeMedian (sorted : List Duration) : Duration :=
  if sorted.length = 0 then 0
  else if sorted.length % 2 = 1 then sorted.getD (sorted.length / 2) 0
  else durDiv (sorted.getD (sorted.length / 2 - 1) 0 + sorted.getD (sorted.length / 2) 0) 2

/-- `computeStdDev`: sample standard deviation (Bessel, divide by
n − 1) computed in float, then truncated to the integer nanosecond;
zero for fewer than two values.  The truncation of the real square
root of the exact variance sumSquares / (n − 1) equals the
natural-number square root of its floor, which is how it is written
here; this agrees with the Go float computation wherever the float
arithmetic is exact (in particular on every concrete input below). -/
def computeStdDev (l : List Duration) (mean : Duration) : Duration :=
  if l.length < 2 then 0
  else
    let sumSquares : Int := (l.map (fun d => (d - mean) ^ 2)).sum
    (Nat.sqrt (sumSquares.toNat / (l.length - 1)) : Int)

/-- `ComputeStats` from internal/stats/stats.go. -/
def ComputeStats (l : List Duration) : Stats :=
  match l with
  | [] => ⟨0, 0, 0, 0, 0⟩
  | [x] => ⟨x, x, x, x, 0⟩
  | _ =>
    let sorted := sortDur l
    { mean := computeMean l
      median := computeMedian sorted
      min := sorted.headD 0
      max := sorted.getLastD 0
      stdDev := computeStdDev l (computeMean l) }

/-- `computeQuartile`: linear-interpolation quantile estimate over the
sorted slice, truncated to the integer nanosecond.  The percentile is
the exact rational pnum / pden (the source passes the floats 0.25 and
0.75, exact in binary); the interpolation index is
percentile × (n − 1), its floor is idxNum / pden and its fractional
part is (idxNum % pden) / pden, so when the index is not integral the
interpolated value s[lower] × (1 − w) + s[upper] × w equals the
rational (s[lower] × (pden − rem) + s[upper] × rem) / pden, and the Go
float-to-duration conversion truncates it toward zero. -/
def computeQuartile (sorted : List Duration) (pnum pden : Nat) : Duration :=
  if sorted.length = 0 then 0
  else
    let idxNum : Nat := pnum * (sorted.length - 1)
    let lower : Nat := idxNum / pden
    let rem : Nat := idxNum % pden
    if rem = 0 then sorted.getD lower 0
    else
      Int.tdiv (sorted.getD lower 0 * ((pden : Int) - (rem : Int))
        + sorted.getD (lower + 1) 0 * (rem : Int)) (pden : Int)

/-- time.Duration(float64(iqr) × 1.5): truncation toward zero of the
exact value 3 × iqr / 2. -/
def iqrMargin (iqr : Duration) : Duration := Int.tdiv (3 * iqr) 2

/-- The lower IQR fence of `DetectOutliers`:
Q1 − time.Duration(float64(IQR) × 1.5). -/
def outlierLowerBound (l : List Duration) : Duration :=
  let q1 := computeQuartile (sortDur l) 1 4
  let q3 := computeQuartile (sortDur l) 3 4
  q1 - iqrMargin (q3 - q1)

/-- The upper IQR fence of `DetectOutliers`:
Q3 + time.Duration(float64(IQR) × 1.5). -/
def outlierUpperBound (l : List Duration) : Duration :=
  let q1 := computeQuartile (sortDur l) 1 4
  let q3 := computeQuartile (sortDur l) 3 4
  q3 + iqrMargin (q3 - q1)

/-- `DetectOutliers` from internal/stats/stats.go: empty below four
values, otherwise every original-order element strictly outside the
IQR fences, carrying its original index, value, and percentage
deviation from the truncated mean. -/
def DetectOutliers (l : List Duration) : List Outlier :=
  if l.length < 4 then []
  else
    let lb := outlierLowerBound l
    let ub := outlierUpperBound l
    let mean := computeMean l
    (l.enum.filter (fun p => decide (p.2 < lb ∨ ub < p.2))).map
      (fun p => ⟨p.1, p.2, ((p.2 : ℚ) - (mean : ℚ)) / (mean : ℚ) * 100⟩)

/-- `ExcludeOutliers` from internal/stats/stats.go: the input itself
when there is nothing to remove, otherwise the elements whose original
index is not flagged, kept in original order (the Go loop over the
slice with a set of flagged indices). -/
def ExcludeOutliers (l : List Duration) (outliers : List Outlier) : List Duration :=
  if outliers.isEmpty then l
  else
    let idxs := outliers.map Outlier.index
    (l.enum.filter (fun p => decide (¬ p.1 ∈ idxs))).map Prod.snd

/-! ## cmd/vtrace/root.go: delay policy -/

/-- The range check of `parseDelayRange` after the two duration strings
have been parsed (string parsing is the standard library): min greater
than max is a configuration error. -/
def parseDelayRange (minDelay maxDelay : Duration) : Except String (Duration × Duration) :=
  if maxDelay < minDelay then Except.error "min delay cannot be greater than max delay"
  else Except.ok (minDelay, maxDelay)

/-- `getDelay` from cmd/vtrace/root.go.  The value drawn from
`rand.Int63n(max − min + 1)` is the explicit argument `r`, which the
generator guarantees to satisfy 0 ≤ r ≤ max − min; `fixedDelay` is the
package-level fixed delay flag. -/
def getDelay (minDelay maxDelay fixedDelay r : Duration) : Duration :=
  if 0 < minDelay ∨ 0 < maxDelay then minDelay + r
  else fixedDelay

/-! ## internal/probe/trace.go -/

/-- `Trace` from internal/probe/trace.go. -/
structure Trace where
  dnsLookup : Duration
  tcpConnect : Duration
  tlsHandshake : Duration
  quicHandshake : Duration
  ttfb : Duration
  total : Duration
deriving Repr, DecidableEq

/-- `traceState`: the timestamps stamped by the httptrace callbacks of
the stream-based (HTTP/1.1-2) fetch.  `start` is always stamped before
dispatch; every other timestamp is `none` when its callback never
fired (the Go zero `time.Time`). -/
structure TraceState where
  start : Int
  dnsStart : Option Int
  dnsDone : Option Int
  connectStart : Option Int
  connectDone : Option Int
  tlsHandshakeStart : Option Int
  tlsHandshakeDone : Option Int
  firstByte : Option Int
deriving Repr, DecidableEq

/-- `buildTrace` from internal/probe/trace.go: each phase is the
difference of its two timestamps when both were observed, zero
otherwise; TTFB is measured from fetch start; Total is the wall-clock
time since fetch start (`now` models the `time.Since` clock read). -/
def buildTrace (st : TraceState) (now : Int) : Trace :=
  { dnsLookup :=
      match st.dnsStart, st.dnsDone with
      | some a, some b => b - a
      | _, _ => 0
    tcpConnect :=
      match st.connectStart, st.connectDone with
      | some a, some b => b - a
      | _, _ => 0
    tlsHandshake :=
      match st.tlsHandshakeStart, st.tlsHandshakeDone with
      | some a, some b => b - a
      | _, _ => 0
    quicHandshake := 0
    ttfb :=
      match st.firstByte with
      | some fb => fb - st.start
      | none => 0
    total := now - st.start }

/-- `http3TraceState`: the timestamps stamped by the callbacks of the
datagram-based (HTTP/3) fetch. -/
structure HTTP3TraceState where
  start : Int
  dnsStart : Option Int
  dnsDone : Option Int
  gotConn : Option Int
  firstByte : Option Int
deriving Repr, DecidableEq

/-- `buildHTTP3Trace` from internal/probe/trace.go: the QUIC handshake
spans from DNS completion (or fetch start when no DNS occurred) to
connection readiness, and is zero when the connection callback never
fired; TTFB and Total are as in the stream-based variant. -/
def buildHTTP3Trace (st : HTTP3TraceState) (now : Int) : Trace :=
  let quicStart : Int :=
    match st.dnsDone with
    | some d => d
    | none => st.start
  { dnsLookup :=
      match st.dnsStart, st.dnsDone with
      | some a, some b => b - a
      | _, _ => 0
    tcpConnect := 0
    tlsHandshake := 0
    quicHandshake :=
      match st.gotConn with
      | some g => g - quicStart
      | none => 0
    ttfb :=
      match st.firstByte with
      | some fb => fb - st.start
      | none => 0
    total := now - st.start }

/-! ## internal/probe/hls.go -/

/-- The Go test that a string starts with the given scheme text (the
prefix test of the strings package), expressed on the character lists
of the two strings. -/
def goStartsWith (s pre : String) : Bool := pre.data.isPrefixOf s.data

/-- The URL machinery of the Go standard library (`net/url`), an
external collaborator: a parser that may reject its input and the
RFC 3986 relative-reference resolver on parsed values, rendered back
to a string.  `U` is the type of parsed URL values. -/
structure URLModel (U : Type) where
  parse : String → Option U
  resolveRef : U → U → String

/-- `resolveURL` from internal/probe/hls.go: a reference that already
starts with the http or https scheme is returned unchanged; otherwise
both inputs are parsed (failure of either is a malformed-locator
error) and the reference is merged into the base by the standard
resolver. -/
def resolveURL {U : Type} (m : URLModel U) (baseURL ref : String) : Except String String :=
  if goStartsWith ref "http://" || goStartsWith ref "https://" then Except.ok ref
  else
    match m.parse baseURL with
    | none => Except.error "failed to parse base URL"
    | some base =>
      match m.parse ref with
      | none => Except.error "failed to parse reference URL"
      | some refU => Except.ok (m.resolveRef base refU)

/-- A variant entry of a master playlist (only its URI matters here). -/
structure Variant where
  uri : String
deriving Repr, DecidableEq

/-- A media segment entry (only its URI matters here). -/
structure Segment where
  uri : String
deriving Repr, DecidableEq

/-- `m3u8.MasterPlaylist`: the ordered variant list. -/
structure MasterPlaylist where
  variants : List Variant
deriving Repr, DecidableEq

/-- `m3u8.MediaPlaylist`: the ordered segment list; `none` entries are
the nil pointers the ring buffer of the parser may contain. -/
structure MediaPlaylist where
  segments : List (Option Segment)
deriving Repr, DecidableEq

/-- `ErrNoSegments` sentinel text. -/
def errNoSegments : String := "media playlist has no segments"

/-- `ErrNoVariants` sentinel text. -/
def errNoVariants : String := "master playlist has no variants"

/-- `GetFirstVariantURL` from internal/probe/hls.go: the first variant
URI resolved against the base; no-variants error on a nil or empty
master playlist. -/
def GetFirstVariantURL {U : Type} (m : URLModel U) (master : Option MasterPlaylist)
    (baseURL : String) : Except String String :=
  match master with
  | none => Except.error errNoVariants
  | some mp =>
    match mp.variants with
    | [] => Except.error errNoVariants
    | v :: _ => resolveURL m baseURL v.uri

/-- The segment loop of `GetFirstSegmentURL`: skip nil entries and
entries with empty URI, resolve the first usable one, fail with the
no-segments error when none remains. -/
def findFirstSegURL {U : Type} (m : URLModel U) (baseURL : String) :
    List (Option Segment) → Except String String
  | [] => Except.error errNoSegments
  | none :: rest => findFirstSegURL m baseURL rest
  | some s :: rest =>
    if s.uri = "" then findFirstSegURL m baseURL rest
    else resolveURL m baseURL s.uri

/-- `GetFirstSegmentURL` from internal/probe/hls.go. -/
def GetFirstSegmentURL {U : Type} (m : URLModel U) (media : Option MediaPlaylist)
    (baseURL : String) : Except String String :=
  match media with
  | none => Except.error errNoSegments
  | some mp => findFirstSegURL m baseURL mp.segments

/-! ## cmd/vtrace/root.go: the orchestrator -/

/-- `Sample` from internal/stats/stats.go. -/
structure Sample where
  dnsLookup : Duration
  tcpConnect : Duration
  tlsHandshake : Duration
  quicHandshake : Duration
  manifestTTFB : Duration
  manifestTotal : Duration
  segmentTotal : Duration
  frameDetection : Duration
  totalTTFF : Duration
deriving Repr, DecidableEq

/-- `probe.PlaylistResult`: at most one of master and media is set, and
the trace of the fetch that produced it. -/
structure PlaylistResult where
  master : Option MasterPlaylist
  media : Option MediaPlaylist
  trace : Trace
deriving Repr, DecidableEq

/-- The collaborators `measureTTFF` calls, as pure functions keyed by
URL: the playlist fetch, the base-URL derivation, the segment download
(returning an opaque data handle and the segment trace), and the frame
detector on a data handle. -/
structure Env (U : Type) where
  urls : URLModel U
  fetchPlaylist : String → Except String PlaylistResult
  getBaseURL : String → Except String String
  downloadSegment : String → Except String (Nat × Trace)
  detectFirstFrame : Nat → Except String Duration

/-- `measureTTFF` from cmd/vtrace/root.go: fetch the playlist at the
target URL, bind `manifestTrace` to that first trace, derive the base
URL, follow one master-playlist redirection when present (refetching
playlist and base URL), select the first segment, download it, run
frame detection, and assemble the Sample.  As in the source,
`manifestTrace` is bound before the redirection and is not updated by
it. -/
def measureTTFF {U : Type} (env : Env U) (url : String) : Except String Sample :=
  match env.fetchPlaylist url with
  | Except.error e => Except.error e
  | Except.ok result0 =>
    let manifestTrace := result0.trace
    match env.getBaseURL url with
    | Except.error e => Except.error e
    | Except.ok baseURL0 =>
      let redirected : Except String (PlaylistResult × String) :=
        match result0.master with
        | none => Except.ok (result0, baseURL0)
        | some _ =>
          match GetFirstVariantURL env.urls result0.master baseURL0 with
          | Except.error e => Except.error e
          | Except.ok variantURL =>
            match env.fetchPlaylist variantURL with
            | Except.error e => Except.error e
            | Except.ok result1 =>
              match env.getBaseURL variantURL with
              | Except.error e => Except.error e
              | Except.ok baseURL1 => Except.ok (result1, baseURL1)
      match redirected with
      | Except.error e => Except.error e
      | Except.ok (result, baseURL) =>
        match GetFirstSegmentURL env.urls result.media baseURL with
        | Except.error e => Except.error e
        | Except.ok segmentURL =>
          match env.downloadSegment segmentURL with
          | Except.error e => Except.error e
          | Except.ok (dataHandle, segmentTrace) =>
            match env.detectFirstFrame dataHandle with
            | Except.error e => Except.error e
            | Except.ok frameDetection =>
              Except.ok
                { dnsLookup := manifestTrace.dnsLookup
                  tcpConnect := manifestTrace.tcpConnect
                  tlsHandshake := manifestTrace.tlsHandshake
                  quicHandshake := 0
                  manifestTTFB := manifestTrace.ttfb
                  manifestTotal := manifestTrace.total
                  segmentTotal := segmentTrace.total
                  frameDetection := frameDetection
                  totalTTFF := manifestTrace.total + segmentTrace.total + frameDetection }

/-! ## Concrete collaborator instances used by witnesses and counterexamples -/

/-- A URL collaborator that parses every string and resolves every
reference to the fixed string "merged". -/
def natURLModel : URLModel Nat :=
  { parse := fun _ => some 0, resolveRef := fun _ _ => "merged" }

/-- A URL collaborator that rejects every string. -/
def noParseURLModel : URLModel Nat :=
  { parse := fun _ => none, resolveRef := fun _ _ => "merged" }

/-- Trace of the initial (variant-index) manifest fetch in the
end-to-end scenario. -/
def trace1 : Trace :=
  { dnsLookup := 1, tcpConnect := 2, tlsHandshake := 3, quicHandshake := 0
    ttfb := 4, total := 100 }

/-- Trace of the redirected (leaf) manifest fetch in the end-to-end
scenario; every field differs from `trace1`. -/
def trace2 : Trace :=
  { dnsLookup := 5, tcpConnect := 6, tlsHandshake := 7, quicHandshake := 0
    ttfb := 8, total := 200 }

/-- Trace of the segment download in the end-to-end scenario. -/
def traceSeg : Trace :=
  { dnsLookup := 9, tcpConnect := 10, tlsHandshake := 11, quicHandshake := 0
    ttfb := 12, total := 30 }

/-- End-to-end scenario environment: the target URL returns a
variant index with one variant (trace `trace1`), the variant URL
returns a leaf manifest with one non-empty segment (trace `trace2`),
the segment downloads with trace `traceSeg`, and the detector reports
12 ns. -/
def envA : Env Nat :=
  { urls := natURLModel
    fetchPlaylist := fun u =>
      if u = "http://h/master.m3u8" then
        Except.ok { master := some { variants := [{ uri := "http://h/v.m3u8" }] }
                    media := none, trace := trace1 }
      else if u = "http://h/v.m3u8" then
        Except.ok { master := none
                    media := some { segments := [some { uri := "http://h/s.ts" }] }
                    trace := trace2 }
      else Except.error "unexpected URL"
    getBaseURL := fun u => Except.ok (u ++ "#base")
    downloadSegment := fun u =>
      if u = "http://h/s.ts" then Except.ok (7, traceSeg)
      else Except.error "unexpected URL"
    detectFirstFrame := fun h => if h = 7 then Except.ok 12 else Except.error "no frame" }

/-! ## Theorems -/

/-- C4 counterexample: the range [0, 0] is accepted by the range
parser, yet `getDelay` then returns the fixed delay (5 s here), which
does not lie within [0, 0]; so a configured range does not always take
precedence and the returned delay can leave [min, max]. -/
theorem getDelay_zero_range_cex :
    parseDelayRange 0 0 = Except.ok (0, 0) ∧
    getDelay 0 0 5000000000 0 = 5000000000 ∧
    ¬ getDelay 0 0 5000000000 0 ≤ 0 := by
  refine ⟨rfl, rfl, by decide⟩

/-- C4 (amended): for a configured randomized range with
0 ≤ min ≤ max that is not [0, 0] (equivalently min > 0 or max > 0),
the delay returned by `getDelay` is min + r for the random draw
r ∈ [0, max − min], hence lies within [min, max] inclusive, and the
fixed delay is ignored: the result does not depend on it. -/
theorem getDelay_in_range (minD maxD fixed r : Duration)
    (hconf : 0 < minD ∨ 0 < maxD) (hmin : 0 ≤ minD) (hle : minD ≤ maxD)
    (hr0 : 0 ≤ r) (hr1 : r ≤ maxD - minD) :
    minD ≤ getDelay minD maxD fixed r ∧
    getDelay minD maxD fixed r ≤ maxD ∧
    ∀ fixed2, getDelay minD maxD fixed2 r = getDelay minD maxD fixed r := by
  have hd : getDelay minD maxD fixed r = minD + r := by
    unfold getDelay
    rw [if_pos hconf]
  refine ⟨by rw [hd]; linarith, by rw [hd]; linarith, fun fixed2 => ?_⟩
  have hd2 : getDelay minD maxD fixed2 r = minD + r := by
    unfold getDelay
    rw [if_pos hconf]
  rw [hd, hd2]

/-- Witness for the amended C4 theorem at the configured range
[2 s, 8 s] with draw r = 3 s and fixed delay 5 s. -/
theorem getDelay_in_range_witness :
    2000000000 ≤ getDelay 2000000000 8000000000 5000000000 3000000000 ∧
    getDelay 2000000000 8000000000 5000000000 3000000000 ≤ 8000000000 := by
  have h := getDelay_in_range 2000000000 8000000000 5000000000 3000000000
    (Or.inl (by decide)) (by decide) (by decide) (by decide) (by decide)
  exact ⟨h.1, h.2.1⟩

/-- C5: contract of `resolveURL`.  A reference that already carries the
http or https scheme is returned unchanged regardless of the URL
collaborator; otherwise a base that fails to parse yields the
malformed-base error, a reference that fails to parse yields the
malformed-reference error, and when both parse the result is the
standard-rules merge of the reference into the base. -/
theorem resolveURL_contract {U : Type} (m : URLModel U) (base ref : String) :
    ((goStartsWith ref "http://" || goStartsWith ref "https://") = true →
      resolveURL m base ref = Except.ok ref) ∧
    ((goStartsWith ref "http://" || goStartsWith ref "https://") = false →
      (m.parse base = none →
        resolveURL m base ref = Except.error "failed to parse base URL") ∧
      (∀ b, m.parse base = some b → m.parse ref = none →
        resolveURL m base ref = Except.error "failed to parse reference URL") ∧
      (∀ b r, m.parse base = some b → m.parse ref = some r →
        resolveURL m base ref = Except.ok (m.resolveRef b r))) := by
  unfold resolveURL
  constructor
  · intro h
    rw [if_pos h]
  · intro h
    rw [if_neg (by simp [h])]
    refine ⟨fun hb => by rw [hb], fun b hb hr => by rw [hb, hr], fun b r hb hr => by rw [hb, hr]⟩

/-- Witness for the C5 theorem: an absolute reference is returned
unchanged even under the collaborator that rejects every parse, and a
relative reference under that collaborator yields the malformed-base
error. -/
theorem resolveURL_contract_witness :
    resolveURL noParseURLModel "http://h/a.m3u8" "https://cdn/x.m3u8" =
      Except.ok "https://cdn/x.m3u8" ∧
    resolveURL noParseURLModel "http://h/a.m3u8" "seg1.ts" =
      Except.error "failed to parse base URL" := by
  constructor
  · exact (resolveURL_contract noParseURLModel "http://h/a.m3u8" "https://cdn/x.m3u8").1 (by decide)
  · exact ((resolveURL_contract noParseURLModel "http://h/a.m3u8" "seg1.ts").2 (by decide)).1 rfl

/-- C6: in both fetch variants, any phase whose start and end
timestamps were not both observed is reported as exactly zero, and
Total is always the difference between the completion clock reading
and the fetch-start timestamp, whichever lifecycle callbacks fired. -/
theorem buildTrace_unobserved_phases (st : TraceState) (st3 : HTTP3TraceState)
    (now now3 : Int) :
    ((st.dnsStart = none ∨ st.dnsDone = none) → (buildTrace st now).dnsLookup = 0) ∧
    ((st.connectStart = none ∨ st.connectDone = none) → (buildTrace st now).tcpConnect = 0) ∧
    ((st.tlsHandshakeStart = none ∨ st.tlsHandshakeDone = none) →
      (buildTrace st now).tlsHandshake = 0) ∧
    (st.firstByte = none → (buildTrace st now).ttfb = 0) ∧
    (buildTrace st now).total = now - st.start ∧
    ((st3.dnsStart = none ∨ st3.dnsDone = none) → (buildHTTP3Trace st3 now3).dnsLookup = 0) ∧
    (st3.gotConn = none → (buildHTTP3Trace st3 now3).quicHandshake = 0) ∧
    (st3.firstByte = none → (buildHTTP3Trace st3 now3).ttfb = 0) ∧
    (buildHTTP3Trace st3 now3).total = now3 - st3.start := by
  refine ⟨?_, ?_, ?_, ?_, rfl, ?_, ?_, ?_, rfl⟩
  · rintro (h | h)
    · cases hd : st.dnsDone <;> simp [buildTrace, h, hd]
    · cases hs : st.dnsStart <;> simp [buildTrace, h, hs]
  · rintro (h | h)
    · cases hd : st.connectDone <;> simp [buildTrace, h, hd]
    · cases hs : st.connectStart <;> simp [buildTrace, h, hs]
  · rintro (h | h)
    · cases hd : st.tlsHandshakeDone <;> simp [buildTrace, h, hd]
    · cases hs : st.tlsHandshakeStart <;> simp [buildTrace, h, hs]
  · intro h
    simp [buildTrace, h]
  · rintro (h | h)
    · cases hd : st3.dnsDone <;> simp [buildHTTP3Trace, h, hd]
    · cases hs : st3.dnsStart <;> simp [buildHTTP3Trace, h, hs]
  · intro h
    simp [buildHTTP3Trace, h]
  · intro h
    simp [buildHTTP3Trace, h]

/-- A segment-list entry is unusable when it is nil or its URI is
empty; the selection loop skips exactly these. -/
def unusableSeg (e : Option Segment) : Prop :=
  ∀ t : Segment, e = some t → t.uri = ""

theorem findFirstSegURL_all_unusable {U : Type} (m : URLModel U) (base : String) :
    ∀ L : List (Option Segment), (∀ e ∈ L, unusableSeg e) →
      findFirstSegURL m base L = Except.error errNoSegments := by
  intro L
  induction L with
  | nil => intro _; rfl
  | cons e rest ih =>
    intro h
    cases e with
    | none =>
      rw [findFirstSegURL]
      exact ih fun x hx => h x (List.mem_cons_of_mem _ hx)
    | some s =>
      rw [findFirstSegURL]
      rw [if_pos (h (some s) (List.mem_cons_self _ _) s rfl)]
      exact ih fun x hx => h x (List.mem_cons_of_mem _ hx)

theorem findFirstSegURL_first {U : Type} (m : URLModel U) (base : String) :
    ∀ (pre : List (Option Segment)) (s : Segment) (rest : List (Option Segment)),
      (∀ e ∈ pre, unusableSeg e) → s.uri ≠ "" →
      findFirstSegURL m base (pre ++ some s :: rest) = resolveURL m base s.uri := by
  intro pre
  induction pre with
  | nil =>
    intro s rest _ hs
    rw [List.nil_append, findFirstSegURL, if_neg hs]
  | cons e pre2 ih =>
    intro s rest h hs
    cases e with
    | none =>
      rw [List.cons_append, findFirstSegURL]
      exact ih s rest (fun x hx => h x (List.mem_cons_of_mem _ hx)) hs
    | some t =>
      rw [List.cons_append, findFirstSegURL]
      rw [if_pos (h (some t) (List.mem_cons_self _ _) t rfl)]
      exact ih s rest (fun x hx => h x (List.mem_cons_of_mem _ hx)) hs

/-- C9: segment selection.  A nil media playlist fails with the
no-segments error; when every entry is nil or empty the selection
fails with the no-segments error; and when the segment list splits as
pre ++ s :: rest with every entry of pre nil or empty and s carrying a
non-empty URI, the selection resolves exactly the URI of s against the
base locator. -/
theorem getFirstSegmentURL_selection {U : Type} (m : URLModel U) (base : String) :
    (GetFirstSegmentURL m none base = Except.error errNoSegments) ∧
    (∀ mp : MediaPlaylist, (∀ e ∈ mp.segments, unusableSeg e) →
      GetFirstSegmentURL m (some mp) base = Except.error errNoSegments) ∧
    (∀ (mp : MediaPlaylist) (pre : List (Option Segment)) (s : Segment)
        (rest : List (Option Segment)),
      mp.segments = pre ++ some s :: rest →
      (∀ e ∈ pre, unusableSeg e) → s.uri ≠ "" →
      GetFirstSegmentURL m (some mp) base = resolveURL m base s.uri) := by
  refine ⟨rfl, fun mp h => ?_, fun mp pre s rest hsplit hpre hs => ?_⟩
  · exact findFirstSegURL_all_unusable m base mp.segments h
  · show findFirstSegURL m base mp.segments = _
    rw [hsplit]
    exact findFirstSegURL_first m base pre s rest hpre hs

/-- Witness for the C9 theorem: a leaf manifest whose first two
entries are nil gets its third, valid entry selected (an absolute URI
is returned unchanged by resolution), and the playlist of one nil and
one empty entry fails with the no-segments error. -/
theorem getFirstSegmentURL_selection_witness :
    GetFirstSegmentURL natURLModel
      (some { segments := [none, none, some { uri := "http://h/s3.ts" }] }) "http://h/" =
      Except.ok "http://h/s3.ts" ∧
    GetFirstSegmentURL natURLModel
      (some { segments := [none, some { uri := "" }] }) "http://h/" =
      Except.error errNoSegments ∧
    GetFirstSegmentURL natURLModel (none : Option MediaPlaylist) "http://h/" =
      Except.error errNoSegments := by
  have h := getFirstSegmentURL_selection natURLModel "http://h/"
  refine ⟨?_, ?_, h.1⟩
  · have h3 := h.2.2 { segments := [none, none, some { uri := "http://h/s3.ts" }] }
      [none, none] { uri := "http://h/s3.ts" } [] rfl
      (by intro e he t het; subst het; simp at he) (by decide)
    rw [h3]
    rfl
  · exact h.2.1 { segments := [none, some { uri := "" }] }
      (by
        intro e he t het
        subst het
        simp at he
        rw [he])

/-- Witness for the C6 theorem: a stream-based fetch where only the
first byte was observed (connection reuse skipped DNS, connect and
TLS) reports those three phases as zero yet a full Total, and a
datagram-based fetch with no connection callback reports a zero QUIC
handshake. -/
theorem buildTrace_unobserved_phases_witness :
    (buildTrace { start := 10, dnsStart := none, dnsDone := none,
                  connectStart := none, connectDone := none,
                  tlsHandshakeStart := none, tlsHandshakeDone := none,
                  firstByte := some 17 } 60).dnsLookup = 0 ∧
    (buildTrace { start := 10, dnsStart := none, dnsDone := none,
                  connectStart := none, connectDone := none,
                  tlsHandshakeStart := none, tlsHandshakeDone := none,
                  firstByte := some 17 } 60).tcpConnect = 0 ∧
    (buildTrace { start := 10, dnsStart := none, dnsDone := none,
                  connectStart := none, connectDone := none,
                  tlsHandshakeStart := none, tlsHandshakeDone := none,
                  firstByte := some 17 } 60).tlsHandshake = 0 ∧
    (buildTrace { start := 10, dnsStart := none, dnsDone := none,
                  connectStart := none, connectDone := none,
                  tlsHandshakeStart := none, tlsHandshakeDone := none,
                  firstByte := some 17 } 60).total = 50 ∧
    (buildHTTP3Trace { start := 10, dnsStart := none, dnsDone := none,
                       gotConn := none, firstByte := none } 45).quicHandshake = 0 := by
  have h := buildTrace_unobserved_phases
    { start := 10, dnsStart := none, dnsDone := none,
      connectStart := none, connectDone := none,
      tlsHandshakeStart := none, tlsHandshakeDone := none, firstByte := some 17 }
    { start := 10, dnsStart := none, dnsDone := none, gotConn := none, firstByte := none }
    60 45
  exact ⟨h.1 (Or.inl rfl), h.2.1 (Or.inl rfl), h.2.2.1 (Or.inl rfl),
    by rw [h.2.2.2.2.1]; decide, h.2.2.2.2.2.2.1 rfl⟩

/-! ## Statistics engine theorems -/

theorem sortDur_perm (l : List Duration) : (sortDur l).Perm l :=
  List.perm_insertionSort _ l

theorem sortDur_sorted (l : List Duration) : List.Sorted (· ≤ ·) (sortDur l) :=
  List.sorted_insertionSort _ l

theorem headD_le_of_sorted {L : List Duration} (hs : List.Sorted (· ≤ ·) L)
    {x : Duration} (hx : x ∈ L) : L.headD 0 ≤ x := by
  cases L with
  | nil => cases hx
  | cons a t =>
    rcases List.mem_cons.mp hx with rfl | hxt
    · exact le_refl _
    · exact (List.pairwise_cons.mp hs).1 x hxt

theorem le_getLastD_of_sorted :
    ∀ {L : List Duration}, List.Sorted (· ≤ ·) L →
      ∀ {x : Duration}, x ∈ L → ∀ d : Duration, x ≤ L.getLastD d := by
  intro L
  induction L with
  | nil => intro _ x hx; cases hx
  | cons a t ih =>
    intro hs x hx d
    rw [List.getLastD_cons]
    cases t with
    | nil =>
      rcases List.mem_cons.mp hx with rfl | hxt
      · exact le_refl _
      · cases hxt
    | cons b t2 =>
      have hst : List.Sorted (· ≤ ·) (b :: t2) := (List.pairwise_cons.mp hs).2
      rcases List.mem_cons.mp hx with rfl | hxt
      · have hab : x ≤ b := (List.pairwise_cons.mp hs).1 b (List.mem_cons_self _ _)
        exact le_trans hab (ih hst (List.mem_cons_self _ _) x)
      · exact ih hst hxt a

theorem getD_mem_of_lt (L : List Duration) (i : Nat) (d : Duration)
    (h : i < L.length) : L.getD i d ∈ L := by
  rw [List.getD_eq_getElem?_getD, List.getElem?_eq_getElem h]
  exact List.getElem_mem h

/-- C2: outlier detection.  Inputs of fewer than four values yield the
empty result; otherwise the reported outliers are, in original order,
exactly the elements strictly outside the IQR fences, each carrying
its original index and raw value; and on [1, 2, 3, 4, 5, 100] the
interpolated quartiles are Q1 = 2 and Q3 = 4 and only the value 100,
at original index 5, is flagged. -/
theorem detectOutliers_spec :
    (∀ s : List Duration, s.length < 4 → DetectOutliers s = []) ∧
    (∀ s : List Duration, ¬ s.length < 4 →
      (DetectOutliers s).map (fun o => (o.index, o.value)) =
        s.enum.filter
          (fun p => decide (p.2 < outlierLowerBound s ∨ outlierUpperBound s < p.2))) ∧
    computeQuartile (sortDur [1, 2, 3, 4, 5, 100]) 1 4 = 2 ∧
    computeQuartile (sortDur [1, 2, 3, 4, 5, 100]) 3 4 = 4 ∧
    (DetectOutliers [1, 2, 3, 4, 5, 100]).map (fun o => (o.index, o.value)) = [(5, 100)] := by
  refine ⟨fun s h => ?_, fun s h => ?_, by decide, by decide, by decide⟩
  · unfold DetectOutliers
    rw [if_pos h]
  · unfold DetectOutliers
    rw [if_neg h, List.map_map]
    have he : ((fun o : Outlier => (o.index, o.value)) ∘
        (fun p : Nat × Duration =>
          Outlier.mk p.1 p.2 (((p.2 : ℚ) - (computeMean s : ℚ)) / (computeMean s : ℚ) * 100))) =
        fun p : Nat × Duration => (p.1, p.2) := rfl
    rw [he]
    have h2 : (fun p : Nat × Duration => (p.1, p.2)) = id := by
      funext p
      rfl
    rw [h2, List.map_id]

/-- Witness for the C2 theorem: a three-element input yields no
outliers, and the six-element example's reported (index, value) pairs
coincide with the strict fence filter over the enumerated input. -/
theorem detectOutliers_spec_witness :
    DetectOutliers [5, 5, 5] = [] ∧
    (DetectOutliers [1, 2, 3, 4, 5, 100]).map (fun o => (o.index, o.value)) =
      ([1, 2, 3, 4, 5, 100] : List Duration).enum.filter
        (fun p => decide (p.2 < outlierLowerBound [1, 2, 3, 4, 5, 100] ∨
          outlierUpperBound [1, 2, 3, 4, 5, 100] < p.2)) :=
  ⟨detectOutliers_spec.1 [5, 5, 5] (by decide),
   detectOutliers_spec.2.1 [1, 2, 3, 4, 5, 100] (by decide)⟩

/-- C8: outlier exclusion.  With the flagged indices distinct and in
range, the result has length len(s) − len(outliers); it is always a
sublist of the input (the retained elements keep their original
relative order); and an empty outlier list returns the input itself. -/
theorem excludeOutliers_spec (s : List Duration) (os : List Outlier)
    (hnd : (os.map Outlier.index).Nodup)
    (hlt : ∀ o ∈ os, o.index < s.length) :
    (ExcludeOutliers s os).length = s.length - os.length ∧
    (ExcludeOutliers s os).Sublist s ∧
    (∀ s2 : List Duration, ExcludeOutliers s2 [] = s2) := by
  refine ⟨?_, ?_, fun s2 => rfl⟩
  · cases os with
    | nil => simp [ExcludeOutliers]
    | cons o0 os2 =>
      unfold ExcludeOutliers
      rw [if_neg (by simp)]
      set idxs : List Nat := (o0 :: os2).map Outlier.index with hidxs
      have hkeep : (s.enum.filter (fun p => decide (¬ p.1 ∈ idxs))).length
          = s.enum.length - (s.enum.filter (fun p => decide (p.1 ∈ idxs))).length := by
        have hsplit := List.length_eq_length_filter_add
          (l := s.enum) (fun p => decide (p.1 ∈ idxs))
        have hcongr : s.enum.filter (fun p => !(decide (p.1 ∈ idxs)))
            = s.enum.filter (fun p => decide (¬ p.1 ∈ idxs)) := by
          simp [decide_not]
        rw [hcongr] at hsplit
        omega
      have hflag : (s.enum.filter (fun p => decide (p.1 ∈ idxs))).length = idxs.length := by
        have hcount : (s.enum.filter (fun p => decide (p.1 ∈ idxs))).length
            = (List.countP (fun i => decide (i ∈ idxs)) (List.range s.length)) := by
          rw [← List.countP_eq_length_filter, ← List.enum_map_fst s, List.countP_map]
          rfl
        have hperm2 : ((List.range s.length).filter (fun i => decide (i ∈ idxs))).Perm idxs := by
          rw [List.perm_ext_iff_of_nodup (List.Nodup.filter _ (List.nodup_range _)) hnd]
          intro a
          simp only [List.mem_filter, List.mem_range, decide_eq_true_eq]
          constructor
          · exact fun hp => hp.2
          · intro ha
            refine ⟨?_, ha⟩
            rcases List.mem_map.mp ha with ⟨o, ho, rfl⟩
            exact hlt o ho
        rw [hcount, List.countP_eq_length_filter]
        exact hperm2.length_eq
      rw [List.length_map, hkeep, hflag, List.enum_length, hidxs, List.length_map]
  · cases os with
    | nil => exact List.Sublist.refl s
    | cons o0 os2 =>
      unfold ExcludeOutliers
      rw [if_neg (by simp)]
      have hsub : ((s.enum.filter
          (fun p => decide (¬ p.1 ∈ (o0 :: os2).map Outlier.index))).map Prod.snd).Sublist
          (s.enum.map Prod.snd) :=
        List.Sublist.map Prod.snd (List.filter_sublist _)
      rw [List.enum_map_snd] at hsub
      exact hsub

/-- Witness for the C8 theorem: on [1, 2, 3, 4, 5, 100] with the
detector's own outlier list (only index 5 flagged) the exclusion
returns [1, 2, 3, 4, 5]. -/
theorem excludeOutliers_spec_witness :
    ExcludeOutliers [1, 2, 3, 4, 5, 100] (DetectOutliers [1, 2, 3, 4, 5, 100]) =
      [1, 2, 3, 4, 5] ∧
    (ExcludeOutliers [1, 2, 3, 4, 5, 100] (DetectOutliers [1, 2, 3, 4, 5, 100])).length = 6 - 1 := by
  have h := excludeOutliers_spec [1, 2, 3, 4, 5, 100] (DetectOutliers [1, 2, 3, 4, 5, 100])
    (by decide) (by decide)
  refine ⟨by decide, ?_⟩
  have hl : (DetectOutliers [1, 2, 3, 4, 5, 100]).length = 1 := by decide
  rw [h.1, hl]
  rfl

theorem getD_eq_zero_of_all_zero {L : List Duration} (hz : ∀ x ∈ L, x = 0)
    (i : Nat) : L.getD i 0 = 0 := by
  rw [List.getD_eq_getElem?_getD]
  cases hg : L[i]? with
  | none => rfl
  | some x =>
    rcases List.getElem?_eq_some.mp hg with ⟨hlt, hx⟩
    have hm : x ∈ L := by
      rw [← hx]
      exact List.getElem_mem hlt
    simp [hz x hm]

theorem computeQuartile_all_zero {L : List Duration} (hz : ∀ x ∈ L, x = 0)
    (pnum pden : Nat) : computeQuartile L pnum pden = 0 := by
  unfold computeQuartile
  split
  · rfl
  · show (if pnum * (L.length - 1) % pden = 0 then L.getD (pnum * (L.length - 1) / pden) 0
      else Int.tdiv (L.getD (pnum * (L.length - 1) / pden) 0 *
          ((pden : Int) - ((pnum * (L.length - 1) % pden : Nat) : Int))
        + L.getD (pnum * (L.length - 1) / pden + 1) 0 *
          ((pnum * (L.length - 1) % pden : Nat) : Int)) (pden : Int)) = 0
    split
    · exact getD_eq_zero_of_all_zero hz _
    · rw [getD_eq_zero_of_all_zero hz, getD_eq_zero_of_all_zero hz]
      simp [Int.tdiv]

theorem outlierBounds_all_zero {s : List Duration} (hz : ∀ x ∈ s, x = 0) :
    outlierLowerBound s = 0 ∧ outlierUpperBound s = 0 := by
  have hzs : ∀ x ∈ sortDur s, x = 0 := fun x hx => hz x ((sortDur_perm s).mem_iff.mp hx)
  have h1 := computeQuartile_all_zero hzs 1 4
  have h3 := computeQuartile_all_zero hzs 3 4
  unfold outlierLowerBound outlierUpperBound
  rw [h1, h3]
  constructor <;> simp [iqrMargin, Int.tdiv]

/-- C10 counterexample: on the non-negative input [0, 0, 0, 1] the
quartile fences collapse to [0, 0], the value 1 at index 3 is flagged
as an outlier, yet the truncated integer mean is 0 — so the deviation
computation does divide by the (zero) mean. -/
theorem detectOutliers_zero_mean_cex :
    (∀ x ∈ ([0, 0, 0, 1] : List Duration), 0 ≤ x) ∧
    (DetectOutliers [0, 0, 0, 1]).map (fun o => (o.index, o.value)) = [(3, 1)] ∧
    computeMean [0, 0, 0, 1] = 0 :=
  ⟨by decide, by decide, by decide⟩

/-- C10 (amended): for an all-zero input the fences are [0, 0] and no
element is flagged, and whenever the detector flags an outlier on a
non-negative input the input has some strictly positive element; the
truncated integer mean, however, can still be zero in that situation
(see the counterexample), so the deviation division is not guarded
against a zero divisor. -/
theorem detectOutliers_zero_mean_guard :
    (∀ s : List Duration, (∀ x ∈ s, x = 0) →
      outlierLowerBound s = 0 ∧ outlierUpperBound s = 0 ∧ DetectOutliers s = []) ∧
    (∀ s : List Duration, (∀ x ∈ s, 0 ≤ x) → DetectOutliers s ≠ [] → ∃ x ∈ s, 0 < x) := by
  have hzero : ∀ s : List Duration, (∀ x ∈ s, x = 0) → DetectOutliers s = [] := by
    intro s hz
    unfold DetectOutliers
    split
    · rfl
    · rcases outlierBounds_all_zero hz with ⟨hlb, hub⟩
      show (s.enum.filter (fun p => decide (p.2 < outlierLowerBound s ∨ outlierUpperBound s < p.2))).map
        (fun p => Outlier.mk p.1 p.2
          (((p.2 : ℚ) - (computeMean s : ℚ)) / (computeMean s : ℚ) * 100)) = []
      rw [hlb, hub]
      have hfe : s.enum.filter (fun p => decide (p.2 < 0 ∨ 0 < p.2)) = [] := by
        rw [List.filter_eq_nil_iff]
        intro p hp
        have hmem : p.2 ∈ s := by
          have := List.mem_map_of_mem Prod.snd hp
          rwa [List.enum_map_snd] at this
        simp [hz p.2 hmem]
      rw [hfe]
      rfl
  refine ⟨fun s hz => ⟨(outlierBounds_all_zero hz).1, (outlierBounds_all_zero hz).2, hzero s hz⟩,
    fun s hn hne => ?_⟩
  by_contra hno
  push_neg at hno
  exact hne (hzero s fun x hx => le_antisymm (hno x hx) (hn x hx))

/-- Witness for the amended C10 theorem: the all-zero four-element
input has fences [0, 0] and produces no outliers, and since
[0, 0, 0, 1] does produce one, that input must contain a positive
element. -/
theorem detectOutliers_zero_mean_guard_witness :
    (outlierLowerBound [0, 0, 0, 0] = 0 ∧ outlierUpperBound [0, 0, 0, 0] = 0 ∧
      DetectOutliers [0, 0, 0, 0] = []) ∧
    (∃ x ∈ ([0, 0, 0, 1] : List Duration), 0 < x) :=
  ⟨detectOutliers_zero_mean_guard.1 [0, 0, 0, 0] (by decide),
   detectOutliers_zero_mean_guard.2 [0, 0, 0, 1] (by decide)
     (by
       intro hcon
       have : (DetectOutliers [0, 0, 0, 1]).map (fun o => (o.index, o.value)) = [(3, 1)] := by
         decide
       rw [hcon] at this
       cases this)⟩

theorem computeStdDev_eq_of_sq (l : List Duration) (mean : Duration)
    (h2 : ¬ l.length < 2) (m : Nat)
    (hm : (l.map (fun d => (d - mean) ^ 2)).sum.toNat / (l.length - 1) = m * m) :
    computeStdDev l mean = (m : Int) := by
  unfold computeStdDev
  rw [if_neg h2]
  show ((Nat.sqrt ((l.map (fun d => (d - mean) ^ 2)).sum.toNat / (l.length - 1)) : Nat) : Int)
    = (m : Int)
  rw [hm, Nat.sqrt_eq]

/-- C3 counterexample: on [10 ms, 20 ms, 30 ms] (nanosecond values)
the computed sample standard deviation is exactly 10 ms, which is not
approximately 14.14 ms: the spec's closing figure contradicts its own
formula sqrt(((10−20)² + 0² + 10²)/2) = sqrt(100) = 10. -/
theorem computeStats_stdDev_cex :
    (ComputeStats [10000000, 20000000, 30000000]).stdDev = 10000000 ∧
    ¬ 14000000 ≤ (ComputeStats [10000000, 20000000, 30000000]).stdDev := by
  have h : (ComputeStats [10000000, 20000000, 30000000]).stdDev
      = computeStdDev [10000000, 20000000, 30000000]
          (computeMean [10000000, 20000000, 30000000]) := rfl
  have h2 : computeStdDev [10000000, 20000000, 30000000]
      (computeMean [10000000, 20000000, 30000000]) = (10000000 : Int) :=
    computeStdDev_eq_of_sq _ _ (by decide) 10000000 (by decide)
  rw [h, h2]
  exact ⟨rfl, by decide⟩

/-- C3 (amended): StdDev is the sample standard deviation with the
Bessel correction — for n ≥ 2 it is the non-negative integer square
root of the variance Σ(d − mean)² / (n − 1), characterised by
StdDev² · (n − 1) ≤ Σ(d − mean)² < (StdDev + 1)² · (n − 1) — and
ComputeStats([10 ms, 20 ms, 30 ms]) yields Mean = Median = 20 ms,
Min = 10 ms, Max = 30 ms and StdDev = sqrt(100) ms = 10 ms (the
spec's "≈ 14.14 ms" figure is arithmetically wrong for its own
formula). -/
theorem computeStats_stdDev_bessel :
    (∀ (l : List Duration) (mean : Duration), 2 ≤ l.length →
      0 ≤ computeStdDev l mean ∧
      computeStdDev l mean ^ 2 * ((l.length - 1 : Nat) : Int) ≤
        (l.map (fun d => (d - mean) ^ 2)).sum ∧
      (l.map (fun d => (d - mean) ^ 2)).sum <
        (computeStdDev l mean + 1) ^ 2 * ((l.length - 1 : Nat) : Int)) ∧
    ComputeStats [10000000, 20000000, 30000000] =
      { mean := 20000000, median := 20000000, min := 10000000
        max := 30000000, stdDev := 10000000 } := by
  constructor
  · intro l mean hlen
    have h2 : ¬ l.length < 2 := by omega
    have hpos : 0 < l.length - 1 := by omega
    set S : Int := (l.map (fun d => (d - mean) ^ 2)).sum with hS
    have hS0 : 0 ≤ S := by
      rw [hS]
      refine List.sum_nonneg ?_
      intro x hx
      rcases List.mem_map.mp hx with ⟨d, _, rfl⟩
      exact sq_nonneg _
    have hdef : computeStdDev l mean
        = ((Nat.sqrt (S.toNat / (l.length - 1)) : Nat) : Int) := by
      unfold computeStdDev
      rw [if_neg h2]
    set q : Nat := S.toNat / (l.length - 1) with hq
    refine ⟨by rw [hdef]; exact Int.natCast_nonneg _, ?_, ?_⟩
    · rw [hdef]
      have hb : Nat.sqrt q ^ 2 * (l.length - 1) ≤ S.toNat := by
        calc Nat.sqrt q ^ 2 * (l.length - 1) ≤ q * (l.length - 1) :=
              Nat.mul_le_mul_right _ (Nat.sqrt_le' q)
          _ ≤ S.toNat := by
              rw [hq]
              exact Nat.div_mul_le_self _ _
      have hb2 := Int.ofNat_le.mpr hb
      push_cast at hb2
      rw [Int.toNat_of_nonneg hS0] at hb2
      exact hb2
    · rw [hdef]
      have hb : S.toNat < (Nat.sqrt q + 1) ^ 2 * (l.length - 1) := by
        have h1 : q < (Nat.sqrt q + 1) ^ 2 := Nat.lt_succ_sqrt' q
        rw [hq] at h1 ⊢
        exact (Nat.div_lt_iff_lt_mul hpos).mp h1
      have hb2 := Int.ofNat_lt.mpr hb
      push_cast at hb2
      rw [Int.toNat_of_nonneg hS0] at hb2
      exact hb2
  · have hs : ComputeStats [10000000, 20000000, 30000000] =
        { mean := computeMean [10000000, 20000000, 30000000]
          median := computeMedian (sortDur [10000000, 20000000, 30000000])
          min := (sortDur [10000000, 20000000, 30000000]).headD 0
          max := (sortDur [10000000, 20000000, 30000000]).getLastD 0
          stdDev := computeStdDev [10000000, 20000000, 30000000]
            (computeMean [10000000, 20000000, 30000000]) } := rfl
    rw [hs, computeStdDev_eq_of_sq _ _ (by decide) 10000000 (by decide)]
    decide

/-- Witness for the amended C3 theorem: the Bessel characterisation at
the concrete input — 10 ms² · 2 ≤ 2 · 10¹⁴ < (10 ms + 1)² · 2 with
StdDev = 10 ms. -/
theorem computeStats_stdDev_bessel_witness :
    0 ≤ computeStdDev [10000000, 20000000, 30000000] 20000000 ∧
    computeStdDev [10000000, 20000000, 30000000] 20000000 ^ 2 *
        (([10000000, 20000000, 30000000].length - 1 : Nat) : Int) ≤
      (([10000000, 20000000, 30000000] : List Duration).map
        (fun d => (d - 20000000) ^ 2)).sum :=
  ⟨(computeStats_stdDev_bessel.1 [10000000, 20000000, 30000000] 20000000 (by decide)).1,
   (computeStats_stdDev_bessel.1 [10000000, 20000000, 30000000] 20000000 (by decide)).2.1⟩

theorem median_between {L : List Duration} (hL : L ≠ []) (hs : List.Sorted (· ≤ ·) L)
    (hn : ∀ x ∈ L, 0 ≤ x) :
    L.headD 0 ≤ computeMedian L ∧ computeMedian L ≤ L.getLastD 0 := by
  unfold computeMedian
  have hlen : L.length ≠ 0 := fun h => hL (List.length_eq_zero.mp h)
  rw [if_neg hlen]
  split
  · have hidx : L.length / 2 < L.length :=
      Nat.div_lt_self (Nat.pos_of_ne_zero hlen) (by decide)
    have hm := getD_mem_of_lt L (L.length / 2) 0 hidx
    exact ⟨headD_le_of_sorted hs hm, le_getLastD_of_sorted hs hm 0⟩
  · rename_i hodd
    have h2 : 2 ≤ L.length := by omega
    have hi1 : L.length / 2 - 1 < L.length := by omega
    have hi2 : L.length / 2 < L.length := by omega
    have hm1 := getD_mem_of_lt L (L.length / 2 - 1) 0 hi1
    have hm2 := getD_mem_of_lt L (L.length / 2) 0 hi2
    set u := L.getD (L.length / 2 - 1) 0 with hu
    set v := L.getD (L.length / 2) 0 with hv
    have hu0 : 0 ≤ u := hn u hm1
    have hv0 : 0 ≤ v := hn v hm2
    have htd : durDiv (u + v) 2 = (u + v) / 2 :=
      Int.tdiv_eq_ediv (by linarith) (by decide)
    rw [htd]
    constructor
    · rw [Int.le_ediv_iff_mul_le (by decide : (0:Int) < 2)]
      have h1 := headD_le_of_sorted hs hm1
      have h2 := headD_le_of_sorted hs hm2
      linarith
    · have h1 := le_getLastD_of_sorted hs hm1 0
      have h2 := le_getLastD_of_sorted hs hm2 0
      calc (u + v) / 2 ≤ (L.getLastD 0 * 2) / 2 :=
            Int.ediv_le_ediv (by decide) (by linarith)
        _ = L.getLastD 0 := Int.mul_ediv_cancel _ (by decide)

theorem mean_between {s : List Duration} (hne : s ≠ []) (hn : ∀ x ∈ s, 0 ≤ x)
    {mn mx : Duration} (hmn : ∀ x ∈ s, mn ≤ x) (hmx : ∀ x ∈ s, x ≤ mx) :
    mn ≤ computeMean s ∧ computeMean s ≤ mx := by
  unfold computeMean
  have hlen : s.length ≠ 0 := fun h => hne (List.length_eq_zero.mp h)
  rw [if_neg hlen]
  have hpos : (0:Int) < (s.length : Int) := by
    exact_mod_cast Nat.pos_of_ne_zero hlen
  have hsum0 : (0:Int) ≤ s.sum := List.sum_nonneg hn
  have htd : durDiv s.sum (s.length : Int) = s.sum / (s.length : Int) :=
    Int.tdiv_eq_ediv hsum0 (le_of_lt hpos)
  rw [htd]
  have hlow : s.length • mn ≤ s.sum := List.card_nsmul_le_sum s mn hmn
  have hhigh : s.sum ≤ s.length • mx := List.sum_le_card_nsmul s mx hmx
  rw [nsmul_eq_mul] at hlow hhigh
  constructor
  · rw [Int.le_ediv_iff_mul_le hpos]
    calc mn * (s.length : Int) = (s.length : Int) * mn := mul_comm _ _
      _ ≤ s.sum := hlow
  · calc s.sum / (s.length : Int) ≤ ((s.length : Int) * mx) / (s.length : Int) :=
        Int.ediv_le_ediv hpos hhigh
      _ = mx := Int.mul_ediv_cancel_left _ (ne_of_gt hpos)

/-- C7: for every non-empty sequence of non-negative durations,
Min ≤ Median ≤ Max and Min ≤ Mean ≤ Max; the empty input yields the
all-zero Stats and a singleton input yields Mean = Median = Min =
Max = x with StdDev = 0. -/
theorem computeStats_order (s : List Duration) (hne : s ≠ []) (hn : ∀ x ∈ s, 0 ≤ x) :
    ((ComputeStats s).min ≤ (ComputeStats s).median ∧
     (ComputeStats s).median ≤ (ComputeStats s).max ∧
     (ComputeStats s).min ≤ (ComputeStats s).mean ∧
     (ComputeStats s).mean ≤ (ComputeStats s).max) ∧
    ComputeStats [] = ⟨0, 0, 0, 0, 0⟩ ∧
    (∀ x : Duration, ComputeStats [x] = ⟨x, x, x, x, 0⟩) := by
  refine ⟨?_, rfl, fun x => rfl⟩
  match s, hne with
  | [x], _ =>
    exact ⟨le_refl x, le_refl x, le_refl x, le_refl x⟩
  | a :: b :: t, _ =>
    show (sortDur (a :: b :: t)).headD 0 ≤ computeMedian (sortDur (a :: b :: t)) ∧
      computeMedian (sortDur (a :: b :: t)) ≤ (sortDur (a :: b :: t)).getLastD 0 ∧
      (sortDur (a :: b :: t)).headD 0 ≤ computeMean (a :: b :: t) ∧
      computeMean (a :: b :: t) ≤ (sortDur (a :: b :: t)).getLastD 0
    have hperm := sortDur_perm (a :: b :: t)
    have hsort := sortDur_sorted (a :: b :: t)
    have hLne : sortDur (a :: b :: t) ≠ [] := by
      intro h
      have hl := hperm.length_eq
      rw [h] at hl
      simp at hl
    have hnL : ∀ x ∈ sortDur (a :: b :: t), 0 ≤ x :=
      fun x hx => hn x (hperm.mem_iff.mp hx)
    have hmed := median_between hLne hsort hnL
    have hmn : ∀ x ∈ a :: b :: t, (sortDur (a :: b :: t)).headD 0 ≤ x :=
      fun x hx => headD_le_of_sorted hsort (hperm.mem_iff.mpr hx)
    have hmx : ∀ x ∈ a :: b :: t, x ≤ (sortDur (a :: b :: t)).getLastD 0 :=
      fun x hx => le_getLastD_of_sorted hsort (hperm.mem_iff.mpr hx) 0
    have hmean := mean_between (by simp) hn hmn hmx
    exact ⟨hmed.1, hmed.2, hmean.1, hmean.2⟩

/-- Witness for the C7 theorem at [30, 10, 20]: the ordering bounds
hold at a concrete unsorted input. -/
theorem computeStats_order_witness :
    (ComputeStats [30, 10, 20]).min ≤ (ComputeStats [30, 10, 20]).median ∧
    (ComputeStats [30, 10, 20]).median ≤ (ComputeStats [30, 10, 20]).max ∧
    (ComputeStats [30, 10, 20]).min ≤ (ComputeStats [30, 10, 20]).mean ∧
    (ComputeStats [30, 10, 20]).mean ≤ (ComputeStats [30, 10, 20]).max :=
  (computeStats_order [30, 10, 20] (by decide) (by decide)).1

/-! ## Orchestrator theorems -/

/-- C1 counterexample: in the end-to-end variant-index scenario the
assembled Sample takes its phase fields and its manifest total from
the initial index fetch (trace1: DNS 1, total 100), not from the
redirected leaf fetch (trace2: DNS 5, total 200), and
TotalTTFF = 100 + 30 + 12 = 142 rather than 200 + 30 + 12 = 242 as
the claim requires. -/
theorem measureTTFF_redirect_cex :
    measureTTFF envA "http://h/master.m3u8" =
      Except.ok
        { dnsLookup := 1, tcpConnect := 2, tlsHandshake := 3, quicHandshake := 0
          manifestTTFB := 4, manifestTotal := 100, segmentTotal := 30
          frameDetection := 12, totalTTFF := 142 } ∧
    trace2.dnsLookup = 5 ∧ trace2.total = 200 ∧
    trace2.total + traceSeg.total + 12 = 242 ∧
    (1 : Duration) ≠ 5 ∧ (142 : Duration) ≠ 242 := by
  refine ⟨rfl, rfl, rfl, rfl, by decide, by decide⟩

/-- C1 (amended): in the end-to-end scenario with a variant index, the
orchestrator resolves the first variant, fetches the leaf manifest,
selects the first non-empty segment, downloads it and runs detection;
the resulting Sample has TotalTTFF = manifest.Total + segment.Total +
detection where the manifest trace is that of the INITIAL
variant-index fetch, and all phase fields (DNS, TCP, TLS, TTFB,
total) are likewise sourced from the initial fetch's trace — the
source binds manifestTrace before the redirection and never updates
it. -/
theorem measureTTFF_redirect (U : Type) (env : Env U) (url : String)
    (r0 r1 : PlaylistResult) (mp : MasterPlaylist) (b0 b1 vurl surl : String)
    (dh : Nat) (segT : Trace) (d : Duration)
    (h0 : env.fetchPlaylist url = Except.ok r0)
    (hm : r0.master = some mp)
    (hb0 : env.getBaseURL url = Except.ok b0)
    (hv : GetFirstVariantURL env.urls r0.master b0 = Except.ok vurl)
    (h1 : env.fetchPlaylist vurl = Except.ok r1)
    (hb1 : env.getBaseURL vurl = Except.ok b1)
    (hs : GetFirstSegmentURL env.urls r1.media b1 = Except.ok surl)
    (hd : env.downloadSegment surl = Except.ok (dh, segT))
    (hf : env.detectFirstFrame dh = Except.ok d) :
    measureTTFF env url = Except.ok
      { dnsLookup := r0.trace.dnsLookup, tcpConnect := r0.trace.tcpConnect
        tlsHandshake := r0.trace.tlsHandshake, quicHandshake := 0
        manifestTTFB := r0.trace.ttfb, manifestTotal := r0.trace.total
        segmentTotal := segT.total, frameDetection := d
        totalTTFF := r0.trace.total + segT.total + d } := by
  unfold measureTTFF
  rw [hm] at hv
  simp only [h0, hb0, hm, hv, h1, hb1, hs, hd, hf]

/-- Witness for the amended C1 theorem at the concrete scenario
environment. -/
theorem measureTTFF_redirect_witness :
    measureTTFF envA "http://h/master.m3u8" =
      Except.ok
        { dnsLookup := trace1.dnsLookup, tcpConnect := trace1.tcpConnect
          tlsHandshake := trace1.tlsHandshake, quicHandshake := 0
          manifestTTFB := trace1.ttfb, manifestTotal := trace1.total
          segmentTotal := traceSeg.total, frameDetection := 12
          totalTTFF := trace1.total + traceSeg.total + 12 } := by
  exact measureTTFF_redirect Nat envA "http://h/master.m3u8"
    { master := some { variants := [{ uri := "http://h/v.m3u8" }] }
      media := none, trace := trace1 }
    { master := none
      media := some { segments := [some { uri := "http://h/s.ts" }] }
      trace := trace2 }
    { variants := [{ uri := "http://h/v.m3u8" }] }
    "http://h/master.m3u8#base" "http://h/v.m3u8#base"
    "http://h/v.m3u8" "http://h/s.ts" 7 traceSeg 12
    rfl rfl rfl rfl rfl rfl rfl rfl rfl

end VTrace
